import Mathlib

/-!
Shallow embedding of the chunking-and-orchestration engine of the
transcriptor repository (files `transcriptor/core.py` and
`transcriptor/audio.py`).

Modelling conventions:
* Python floats (durations, sizes in MB) are modelled as exact rationals `ℚ`.
* External effects (ffprobe, ffmpeg, the HTTP transcription service, the
  filesystem) are modelled by an environment `Env` of oracles.
* The observable side effects of one orchestration call are recorded in an
  explicit list of `Event`s: creation of a temporary file, deletion of a
  file, and one API upload call per transcription request.
* Fallible Python code (raising exceptions) is modelled with `Except`.
-/

/-- The on-disk files an orchestration call can touch.  `original` is the
caller's input path, `extracted` the temp WAV produced by
`AudioProcessor.extract_audio`, `buffered` the temp file holding a buffered
stream (`_transcribir_fileobject`), `downloaded` the temp file holding a
downloaded URL (`transcribir_url`), and `chunkSeg i` the temp segment file
for chunk `i` created by `AudioProcessor.create_chunks`. -/
inductive MediaPath where
  | original : MediaPath
  | extracted : MediaPath
  | buffered : MediaPath
  | downloaded : MediaPath
  | chunkSeg : ℕ → MediaPath
deriving DecidableEq, Repr

instance : Inhabited MediaPath := ⟨MediaPath.original⟩

/-- Side effects recorded during an orchestration call. -/
inductive Event where
  | created : MediaPath → Event
  | deleted : MediaPath → Event
  | api_call : MediaPath → Event
deriving DecidableEq, Repr

/-- One segment of a verbose transcription response (`result['segments']`);
the Python keys are `start`, `end`, `text` (`end` is renamed `stop`). -/
structure Segment where
  start : ℚ
  stop : ℚ
  text : String
deriving DecidableEq, Repr

/-- A response of the external transcription service.  `json_text` models
`response.json().get('text','')`, `raw_text` models `response.text` (the
raw body used in the error message), `segments` models
`response.json().get('segments',[])`. -/
structure HttpResponse where
  status_code : ℕ
  json_text : String
  segments : List Segment
  raw_text : String
deriving DecidableEq, Repr

/-- Errors raised by the engine (`core.py` raises plain `Exception`s /
`ValueError` / `FileNotFoundError`; we separate them structurally).
`apiError` carries the numeric status code and the raw response body, as in
`raise Exception(f'Error de API Groq: {response.status_code} - {response.text}')`. -/
inductive TrError where
  | apiError (status_code : ℕ) (body : String)
  | mediaError
  | valueError
  | fileNotFound
  | downloadError
deriving DecidableEq, Repr

/-- The dict returned by `Transcriptor.transcribir` (core.py lines 110-117
and 170-177). -/
structure TranscriptionResult where
  text : String
  language : String
  duration : Option ℚ
  success : Bool
  model : String
  chunks : ℕ
deriving DecidableEq, Repr

/-- Oracles for all external effects: the extension of the original input
path, filesystem existence of the input, success of `ffmpeg` audio
extraction, `ffprobe` duration (None on any probe failure), file size in
megabytes, per-chunk success of the `ffmpeg` segmentation command, the HTTP
response per uploaded file, and success of the URL download. -/
structure Env where
  orig_ext : String
  exists_file : MediaPath → Bool
  extract_ok : Bool
  duration_of : MediaPath → Option ℚ
  size_mb : MediaPath → ℚ
  mat_ok : ℕ → Bool
  http : MediaPath → HttpResponse
  download_ok : Bool

/-- `AudioProcessor.VIDEO_EXTENSIONS` (audio.py lines 14-17). -/
def VIDEO_EXTENSIONS : List String :=
  [".mp4", ".mov", ".avi", ".mkv", ".webm", ".flv", ".wmv", ".m4v", ".mpg", ".mpeg"]

/-- `AudioProcessor.AUDIO_EXTENSIONS` (audio.py lines 19-22). -/
def AUDIO_EXTENSIONS : List String :=
  [".mp3", ".wav", ".m4a", ".flac", ".ogg", ".aac", ".wma", ".opus"]

/-- `Path(filepath).suffix` for each modelled file: the buffered/downloaded
temporaries are created with `suffix='.tmp'`, extraction and chunk segments
with a `.wav` suffix. -/
def MediaPath.ext (env : Env) : MediaPath → String
  | .original => env.orig_ext
  | .extracted => ".wav"
  | .buffered => ".tmp"
  | .downloaded => ".tmp"
  | .chunkSeg _ => ".wav"

/-- `str.lower()` on a suffix, written over the character list so that the
kernel can evaluate it. -/
def str_lower (s : String) : String := ⟨s.data.map Char.toLower⟩

/-- `AudioProcessor.is_video` (audio.py lines 24-35). -/
def is_video (env : Env) (p : MediaPath) : Bool :=
  VIDEO_EXTENSIONS.contains (str_lower (p.ext env))

/-- `AudioProcessor.is_audio` (audio.py lines 37-48). -/
def is_audio (env : Env) (p : MediaPath) : Bool :=
  AUDIO_EXTENSIONS.contains (str_lower (p.ext env))

/-- `Transcriptor.MAX_FILE_SIZE_MB = 25` (core.py line 21). -/
def MAX_FILE_SIZE_MB : ℚ := 25

/-- `num_chunks = math.ceil(duration / (chunk_duration - overlap))`
(audio.py line 148). -/
def num_chunks (duration chunk_duration overlap : ℚ) : ℕ :=
  (⌈duration / (chunk_duration - overlap)⌉).toNat

/-- The time windows computed by the loop of `AudioProcessor.create_chunks`
(audio.py lines 150-152): for each `i < num_chunks`,
`start_time = i * (chunk_duration - overlap)` and
`end_time = min(start_time + chunk_duration, duration)`. -/
def create_chunks_plan (duration chunk_duration overlap : ℚ) : List (ℚ × ℚ) :=
  (List.range (num_chunks duration chunk_duration overlap)).map (fun i : ℕ =>
    ((i : ℚ) * (chunk_duration - overlap),
     min ((i : ℚ) * (chunk_duration - overlap) + chunk_duration) duration))

/-- Body of the `for i in range(num_chunks)` loop of
`AudioProcessor.create_chunks` (audio.py lines 150-183): a temp segment
file is created; if the ffmpeg command succeeds the path is appended to the
chunk list, otherwise the failed segment file is removed and iteration
continues. -/
def chunk_step (env : Env) (acc : List MediaPath × List Event) (i : ℕ) :
    List MediaPath × List Event :=
  let p := MediaPath.chunkSeg i
  if env.mat_ok i then
    (acc.1 ++ [p], acc.2 ++ [Event.created p])
  else
    (acc.1, acc.2 ++ [Event.created p, Event.deleted p])

/-- `AudioProcessor.create_chunks` (audio.py lines 130-185).  `ffprobe` is
re-invoked on `audio_path`; on an unknown (or `0.0`, since Python tests
`if not duration`) duration the source file itself is returned as the
single "chunk" without planning any window. -/
def create_chunks (env : Env) (audio_path : MediaPath)
    (chunk_duration overlap : ℚ) : List MediaPath × List Event :=
  match env.duration_of audio_path with
  | none => ([audio_path], [])
  | some duration =>
    if duration = 0 then ([audio_path], [])
    else
      (List.range (num_chunks duration chunk_duration overlap)).foldl
        (chunk_step env) ([], [])

/-- The chunk files `create_chunks` returns once a duration is known: the
segments whose ffmpeg materialization succeeded, in index order. -/
def mat_list (env : Env) (n : ℕ) : List MediaPath :=
  ((List.range n).filter (fun i => env.mat_ok i)).map MediaPath.chunkSeg

/-- The file events of the materialization loop: every segment file is
created; a segment whose ffmpeg command fails is deleted on the spot. -/
def mat_events (env : Env) (n : ℕ) : List Event :=
  (List.range n).flatMap (fun i =>
    if env.mat_ok i then [Event.created (MediaPath.chunkSeg i)]
    else [Event.created (MediaPath.chunkSeg i), Event.deleted (MediaPath.chunkSeg i)])

/-- `AudioProcessor.extract_audio` (audio.py lines 81-128): a temp `.wav`
file is created; on ffmpeg failure it is removed and the error propagates. -/
def extract_audio (env : Env) (_video_path : MediaPath) :
    Except TrError MediaPath × List Event :=
  if env.extract_ok then
    (.ok MediaPath.extracted, [Event.created MediaPath.extracted])
  else
    (.error .mediaError,
     [Event.created MediaPath.extracted, Event.deleted MediaPath.extracted])

/-- `"%02d"` rendering of a minute/second count (core.py line 250). -/
def pad2 (n : ℕ) : String :=
  if n < 10 then "0" ++ toString n else toString n

/-- `int(q // 60)` and `int(q % 60)` rendered as `MM:SS` (core.py lines
244-250; timestamps from the service are non-negative). -/
def fmt_minsec (q : ℚ) : String :=
  pad2 (⌊q / 60⌋).toNat ++ ":" ++ pad2 (⌊q - 60 * ⌊q / 60⌋⌋).toNat

/-- `Transcriptor._format_verbose` (core.py lines 231-253). -/
def format_verbose (resp : HttpResponse) : String :=
  let header := ["=== TRANSCRIPCIÓN COMPLETA ===\n", resp.json_text,
    "\n\n=== SEGMENTOS CON TIMESTAMPS ===\n"]
  let seg_lines := resp.segments.map (fun s =>
    "[" ++ fmt_minsec s.start ++ " - " ++ fmt_minsec s.stop ++ "] " ++ s.text.trim)
  String.intercalate "\n" (header ++ seg_lines)

/-- `Transcriptor._call_api` (core.py lines 179-229): on status 200 the
parsed text (verbose-formatted if requested) is returned, otherwise an
error carrying the numeric status code and the raw response body is
raised.  Exactly one upload (`api_call`) happens per invocation. -/
def call_api (env : Env) (filepath : MediaPath) (fmt : String) :
    Except TrError String × List Event :=
  if (env.http filepath).status_code = 200 then
    (.ok (if fmt = "verbose_json" then format_verbose (env.http filepath)
          else (env.http filepath).json_text),
     [Event.api_call filepath])
  else
    (.error (.apiError (env.http filepath).status_code (env.http filepath).raw_text),
     [Event.api_call filepath])

/-- The text `_call_api` returns for `filepath` when the response status is
200. -/
def api_text (env : Env) (fmt : String) (p : MediaPath) : String :=
  if fmt = "verbose_json" then format_verbose (env.http p) else (env.http p).json_text

/-- `'\n\n'.join(texts)` (core.py line 168). -/
def join_blank : List String → String
  | [] => ""
  | t :: rest => rest.foldl (fun acc s => acc ++ "\n\n" ++ s) t

/-- The `for i, chunk_path in enumerate(chunks, 1)` loop of
`Transcriptor._transcribir_chunks` (core.py lines 158-165): each chunk is
uploaded in index order; on success its file is removed and iteration
continues; on an API error the exception propagates immediately (the
current and remaining chunk files are not removed). -/
def chunk_loop (env : Env) (fmt : String) :
    List MediaPath → Except TrError (List String) × List Event
  | [] => (.ok [], [])
  | p :: rest =>
    match (call_api env p fmt).1 with
    | .error e => (.error e, (call_api env p fmt).2)
    | .ok t =>
      match (chunk_loop env fmt rest).1 with
      | .error e =>
        (.error e,
         (call_api env p fmt).2 ++ [Event.deleted p] ++ (chunk_loop env fmt rest).2)
      | .ok ts =>
        (.ok (t :: ts),
         (call_api env p fmt).2 ++ [Event.deleted p] ++ (chunk_loop env fmt rest).2)

/-- `Transcriptor._transcribir_chunks` (core.py lines 148-177):
`chunk_duration = 4 * 60`, overlap left at its default 15. -/
def transcribir_chunks (env : Env) (audio_path : MediaPath) (duration : Option ℚ)
    (language mdl _prompt fmt : String) :
    Except TrError TranscriptionResult × List Event :=
  match (chunk_loop env fmt (create_chunks env audio_path (4 * 60) 15).1).1 with
  | .error e =>
    (.error e,
     (create_chunks env audio_path (4 * 60) 15).2
       ++ (chunk_loop env fmt (create_chunks env audio_path (4 * 60) 15).1).2)
  | .ok texts =>
    (.ok { text := join_blank texts, language := language, duration := duration,
           success := true, model := mdl,
           chunks := (create_chunks env audio_path (4 * 60) 15).1.length },
     (create_chunks env audio_path (4 * 60) 15).2
       ++ (chunk_loop env fmt (create_chunks env audio_path (4 * 60) 15).1).2)

/-- The steps of `Transcriptor._transcribir_archivo` once the working audio
file is known (core.py lines 95-117): probe the duration, compute the size
in MB, and take the chunked path iff
`size_mb > MAX_FILE_SIZE_MB and chunk_if_needed`; otherwise transcribe the
whole file in one API call. -/
def transcribir_audio_file (env : Env) (audio_path : MediaPath)
    (language mdl prompt fmt : String) (chunk_if_needed : Bool) :
    Except TrError TranscriptionResult × List Event :=
  let duration := env.duration_of audio_path
  let size_mb := env.size_mb audio_path
  if MAX_FILE_SIZE_MB < size_mb ∧ chunk_if_needed = true then
    transcribir_chunks env audio_path duration language mdl prompt fmt
  else
    let c := call_api env audio_path fmt
    match c.1 with
    | .error e => (.error e, c.2)
    | .ok text =>
      (.ok { text := text, language := language, duration := duration,
             success := true, model := mdl, chunks := 1 },
       c.2)

/-- `Transcriptor._transcribir_archivo` (core.py lines 85-117): a video
input is first converted to audio by `extract_audio`, then the working
audio file is transcribed (whole or chunked). -/
def transcribir_archivo (env : Env) (filepath : MediaPath)
    (language mdl prompt fmt : String) (chunk_if_needed : Bool) :
    Except TrError TranscriptionResult × List Event :=
  let ext_step : Except TrError MediaPath × List Event :=
    if is_video env filepath then extract_audio env filepath else (.ok filepath, [])
  match ext_step with
  | (.error e, evs) => (.error e, evs)
  | (.ok audio_path, evs) =>
    let r := transcribir_audio_file env audio_path language mdl prompt fmt chunk_if_needed
    (r.1, evs ++ r.2)

/-- `Transcriptor._transcribir_fileobject` (core.py lines 119-146): the
temp file is created first; an unsupported object raises `ValueError`
before the try/finally, leaking the temp file; otherwise the buffered file
is transcribed with `chunk_if_needed=True` and the finally block removes
the temp file if it still exists. -/
def transcribir_fileobject (env : Env) (supported : Bool)
    (language mdl prompt fmt : String) :
    Except TrError TranscriptionResult × List Event :=
  if supported then
    if Event.deleted MediaPath.buffered
        ∈ Event.created MediaPath.buffered
            :: (transcribir_archivo env MediaPath.buffered language mdl prompt fmt true).2 then
      ((transcribir_archivo env MediaPath.buffered language mdl prompt fmt true).1,
       Event.created MediaPath.buffered
         :: (transcribir_archivo env MediaPath.buffered language mdl prompt fmt true).2)
    else
      ((transcribir_archivo env MediaPath.buffered language mdl prompt fmt true).1,
       (Event.created MediaPath.buffered
          :: (transcribir_archivo env MediaPath.buffered language mdl prompt fmt true).2)
         ++ [Event.deleted MediaPath.buffered])
  else
    (.error .valueError, [Event.created MediaPath.buffered])

/-- The input accepted by `Transcriptor.transcribir`: a filesystem path
(str) or a file-like object; `supported` records whether the object has a
`read` method or Django-style `chunks`. -/
inductive MediaSource where
  | path (p : MediaPath)
  | fileobject (supported : Bool)
deriving DecidableEq, Repr

/-- `Transcriptor.transcribir` (core.py lines 38-83). -/
def transcribir (env : Env) (source : MediaSource)
    (language mdl prompt fmt : String) (chunk_if_needed : Bool) :
    Except TrError TranscriptionResult × List Event :=
  match source with
  | .path p =>
    if env.exists_file p then
      transcribir_archivo env p language mdl prompt fmt chunk_if_needed
    else (.error .fileNotFound, [])
  | .fileobject supported =>
    transcribir_fileobject env supported language mdl prompt fmt

/-- `Transcriptor.transcribir_url` (core.py lines 255-281): the temp file
is created, the URL is downloaded into it (a download failure leaks the
temp file), `transcribir` runs on the temp path with default
`format='json'` and `chunk_if_needed=True`, and the finally block removes
the temp file if it still exists. -/
def transcribir_url (env : Env) (language mdl prompt : String) :
    Except TrError TranscriptionResult × List Event :=
  if env.download_ok then
    if Event.deleted MediaPath.downloaded
        ∈ Event.created MediaPath.downloaded
            :: (transcribir env (.path MediaPath.downloaded) language mdl prompt "json" true).2 then
      ((transcribir env (.path MediaPath.downloaded) language mdl prompt "json" true).1,
       Event.created MediaPath.downloaded
         :: (transcribir env (.path MediaPath.downloaded) language mdl prompt "json" true).2)
    else
      ((transcribir env (.path MediaPath.downloaded) language mdl prompt "json" true).1,
       (Event.created MediaPath.downloaded
          :: (transcribir env (.path MediaPath.downloaded) language mdl prompt "json" true).2)
         ++ [Event.deleted MediaPath.downloaded])
  else
    (.error .downloadError, [Event.created MediaPath.downloaded])

/-- The files created (as temporaries) during a run. -/
def created_paths (es : List Event) : List MediaPath :=
  es.filterMap (fun e => match e with | .created p => some p | _ => none)

/-- The files deleted during a run. -/
def deleted_paths (es : List Event) : List MediaPath :=
  es.filterMap (fun e => match e with | .deleted p => some p | _ => none)

/-- The files uploaded to the transcription service during a run, one entry
per HTTP request, in request order. -/
def api_calls (es : List Event) : List MediaPath :=
  es.filterMap (fun e => match e with | .api_call p => some p | _ => none)

/-- The temporary files created by the run and still on disk when it ends. -/
def remaining (es : List Event) : List MediaPath :=
  (created_paths es).filter (fun p => decide (p ∉ deleted_paths es))

/-- The working audio file of `_transcribir_archivo`: the extraction output
for a video input, the input itself otherwise (core.py lines 89-93). -/
def working_path (env : Env) (fp : MediaPath) : MediaPath :=
  if is_video env fp then MediaPath.extracted else fp

/-- The default model of the `Transcriptor` constructor (core.py line 23). -/
def default_model : String := "whisper-large-v3-turbo"

/-- A 200 response whose parsed `text` field is `t`. -/
def respOk (t : String) : HttpResponse :=
  { status_code := 200, json_text := t, segments := [], raw_text := "" }

/-- An HTTP 429 response with raw body "rate limited". -/
def resp429 : HttpResponse :=
  { status_code := 429, json_text := "", segments := [], raw_text := "rate limited" }

/-- A 30 MB mp3 of 600 seconds: chunked into 3 segments of the default
240-second windows; every external operation succeeds. -/
def baseEnv : Env :=
  { orig_ext := ".mp3"
    exists_file := fun _ => true
    extract_ok := true
    duration_of := fun _ => some 600
    size_mb := fun _ => 30
    mat_ok := fun _ => true
    http := fun _ => respOk "texto"
    download_ok := true }

/-- Scenario D environment: the service answers 200 for chunk 0 and 429 for
chunk 1 (the second of the three chunks). -/
def envD : Env :=
  { baseEnv with http := fun p => match p with
      | MediaPath.chunkSeg 1 => resp429
      | _ => respOk "texto" }

/-- All chunk uploads succeed, chunk `i` transcribing to `"t" ++ toString i`. -/
def envOK : Env :=
  { baseEnv with http := fun p => match p with
      | MediaPath.chunkSeg i => respOk ("t" ++ toString i)
      | _ => respOk "texto" }

/-- Every chunk materialization (`ffmpeg` segmentation) fails. -/
def envM : Env :=
  { baseEnv with mat_ok := fun _ => false }

/-- A 10 MB, 10-second mp3, transcribed in one piece to "hola". -/
def envSmall : Env :=
  { baseEnv with
    size_mb := fun _ => 10
    duration_of := fun _ => some 10
    http := fun _ => respOk "hola" }

/-- The duration probe fails on every file. -/
def envNoDur : Env :=
  { baseEnv with duration_of := fun _ => none }

/-- The result of transcribing `envOK`'s 30 MB file on the chunked path. -/
def resOK : TranscriptionResult :=
  { text := join_blank ["t0", "t1", "t2"]
    language := "es"
    duration := some 600
    success := true
    model := default_model
    chunks := 3 }

/-- The degenerate result produced by `envM`: success with zero chunks. -/
def resM : TranscriptionResult :=
  { text := ""
    language := "es"
    duration := some 600
    success := true
    model := default_model
    chunks := 0 }

/-- The result of transcribing `envSmall`'s 10 MB file directly. -/
def resSmall : TranscriptionResult :=
  { text := "hola"
    language := "es"
    duration := some 10
    success := true
    model := default_model
    chunks := 1 }

lemma num_chunks_pos (d cd ov : ℚ) (hd : 0 < d) (hcd : ov < cd) :
    1 ≤ num_chunks d cd ov := by
  have hs : 0 < cd - ov := by linarith
  have h : (0:ℤ) < ⌈d / (cd - ov)⌉ := Int.ceil_pos.mpr (div_pos hd hs)
  unfold num_chunks
  omega

lemma index_mul_stride_lt (d cd ov : ℚ) (hs : 0 < cd - ov) {i : ℕ}
    (hi : i < num_chunks d cd ov) : (i : ℚ) * (cd - ov) < d := by
  have h1 : (i : ℤ) < ⌈d / (cd - ov)⌉ := by
    unfold num_chunks at hi
    omega
  have h2 : (i : ℚ) < d / (cd - ov) := by exact_mod_cast Int.lt_ceil.mp h1
  calc (i:ℚ) * (cd - ov) < d / (cd - ov) * (cd - ov) :=
        mul_lt_mul_of_pos_right h2 hs
    _ = d := div_mul_cancel₀ d hs.ne'

lemma le_num_chunks_mul_stride (d cd ov : ℚ) (hd : 0 < d) (hs : 0 < cd - ov) :
    d ≤ (num_chunks d cd ov : ℚ) * (cd - ov) := by
  have h0 : (0:ℤ) ≤ ⌈d / (cd - ov)⌉ := (Int.ceil_pos.mpr (div_pos hd hs)).le
  have h1 : ((num_chunks d cd ov : ℕ) : ℚ) = ((⌈d / (cd - ov)⌉ : ℤ) : ℚ) := by
    unfold num_chunks
    exact_mod_cast congrArg (fun z : ℤ => (z : ℚ)) (Int.toNat_of_nonneg h0)
  have h2 : d / (cd - ov) ≤ ((⌈d / (cd - ov)⌉ : ℤ) : ℚ) := Int.le_ceil _
  have h3 := mul_le_mul_of_nonneg_right h2 hs.le
  rw [div_mul_cancel₀ d hs.ne'] at h3
  rw [h1]
  exact h3

lemma plan_length (d cd ov : ℚ) :
    (create_chunks_plan d cd ov).length = num_chunks d cd ov := by
  simp [create_chunks_plan]

lemma plan_getD (d cd ov : ℚ) {i : ℕ} (hi : i < num_chunks d cd ov) (w : ℚ × ℚ) :
    (create_chunks_plan d cd ov).getD i w
      = ((i : ℚ) * (cd - ov), min ((i : ℚ) * (cd - ov) + cd) d) := by
  unfold create_chunks_plan
  rw [List.getD_eq_getElem?_getD, List.getElem?_map, List.getElem?_range hi]
  rfl

lemma num_chunks_600 : num_chunks 600 240 15 = 3 := by
  unfold num_chunks
  rw [show ⌈(600:ℚ)/(240-15)⌉ = 3 by rw [Int.ceil_eq_iff] ; norm_num]
  rfl

lemma plan_600 : create_chunks_plan 600 240 15 = [(0, 240), (225, 465), (450, 600)] := by
  unfold create_chunks_plan
  rw [num_chunks_600]
  rw [show List.range 3 = [0, 1, 2] by rfl]
  norm_num [min_def]

/-- Claim C2: for every `duration > 0` and `window_length > overlap ≥ 0`, the
time-window loop of `AudioProcessor.create_chunks` produces exactly
`⌈duration / (window_length − overlap)⌉` windows; window `i` is
`(i·stride, min (i·stride + window_length) duration)`; the final window ends
exactly at `duration`; every window satisfies `start < end ≤ duration`; and
`duration=600, window=240, overlap=15` yields `(0,240), (225,465), (450,600)`. -/
theorem claim_C2_chunk_plan (d cd ov : ℚ) (hd : 0 < d) (hov : 0 ≤ ov) (hcd : ov < cd) :
    (create_chunks_plan d cd ov).length = (⌈d / (cd - ov)⌉).toNat
    ∧ 1 ≤ (create_chunks_plan d cd ov).length
    ∧ (∀ i, i < (create_chunks_plan d cd ov).length →
        (create_chunks_plan d cd ov).getD i (0, 0)
          = ((i : ℚ) * (cd - ov), min ((i : ℚ) * (cd - ov) + cd) d))
    ∧ ((create_chunks_plan d cd ov).getD ((create_chunks_plan d cd ov).length - 1) (0, 0)).2 = d
    ∧ (∀ w ∈ create_chunks_plan d cd ov, w.1 < w.2 ∧ w.2 ≤ d)
    ∧ create_chunks_plan 600 240 15 = [(0, 240), (225, 465), (450, 600)] := by
  have hs : 0 < cd - ov := by linarith
  have hn1 : 1 ≤ num_chunks d cd ov := num_chunks_pos d cd ov hd hcd
  refine ⟨plan_length d cd ov, ?_, ?_, ?_, ?_, plan_600⟩
  · rw [plan_length]; exact hn1
  · intro i hi
    rw [plan_length] at hi
    exact plan_getD d cd ov hi _
  · rw [plan_length]
    have hlt : num_chunks d cd ov - 1 < num_chunks d cd ov := by omega
    rw [plan_getD d cd ov hlt]
    have hcast : ((num_chunks d cd ov - 1 : ℕ) : ℚ) = (num_chunks d cd ov : ℚ) - 1 := by
      push_cast [Nat.cast_sub hn1]
      ring
    have hle : d ≤ ((num_chunks d cd ov - 1 : ℕ) : ℚ) * (cd - ov) + cd := by
      rw [hcast]
      have := le_num_chunks_mul_stride d cd ov hd hs
      nlinarith [this]
    simpa using min_eq_right hle
  · intro w hw
    unfold create_chunks_plan at hw
    rw [List.mem_map] at hw
    obtain ⟨i, hmem, rfl⟩ := hw
    rw [List.mem_range] at hmem
    have h1 : (i : ℚ) * (cd - ov) < d := index_mul_stride_lt d cd ov hs hmem
    refine ⟨?_, min_le_right _ _⟩
    dsimp only
    have h2 : (i : ℚ) * (cd - ov) < (i : ℚ) * (cd - ov) + cd := by linarith
    exact lt_min h2 h1

/-- Witness for C2 at `duration=600, window=240, overlap=15` (Scenario A). -/
theorem claim_C2_chunk_plan_witness :
    create_chunks_plan 600 240 15 = [(0, 240), (225, 465), (450, 600)] :=
  (claim_C2_chunk_plan 600 240 15 (by norm_num) (by norm_num) (by norm_num)).2.2.2.2.2

lemma num_chunks_600x : num_chunks 600 (4 * 60) 15 = 3 := by
  rw [show (4:ℚ) * 60 = 240 by norm_num]
  exact num_chunks_600

lemma num_chunks_4_10_9 : num_chunks 4 10 9 = 4 := by
  unfold num_chunks
  rw [show ⌈(4:ℚ)/(10-9)⌉ = 4 by rw [Int.ceil_eq_iff] ; norm_num]
  rfl

/-- Claim C3 is false as stated: with `duration=4`, `window_length=10`,
`overlap=9` (so `stride=1`), the plan has 4 windows, windows 0 and 1 are
both non-final, yet `end₀ − start₁ = 4 − 1 = 3 ≠ 9 = overlap`, because
window 0 is already truncated at `duration`. -/
theorem claim_C3_cex :
    (create_chunks_plan 4 10 9).length = 4
    ∧ ¬(((create_chunks_plan 4 10 9).getD 0 (0,0)).2
        - ((create_chunks_plan 4 10 9).getD 1 (0,0)).1 = 9) := by
  constructor
  · rw [plan_length, num_chunks_4_10_9]
  · rw [plan_getD 4 10 9 (by rw [num_chunks_4_10_9]; omega) (0,0),
        plan_getD 4 10 9 (by rw [num_chunks_4_10_9]; omega) (0,0)]
    norm_num [min_def]

/-- Claim C3 (amended): assuming additionally `window_length ≥ 2·overlap`
(the stride is at least the overlap, true of the defaults 240/15), any two
consecutive windows that are both non-final share exactly `overlap`
seconds; the final pair shares at most `overlap` seconds, with a strictly
smaller share only when the penultimate window is truncated at `duration`. -/
theorem claim_C3_overlap_amended (d cd ov : ℚ) (hd : 0 < d) (hov : 0 ≤ ov)
    (hcd : ov < cd) (hw : 2 * ov ≤ cd) :
    (∀ i, i + 2 < (create_chunks_plan d cd ov).length →
      ((create_chunks_plan d cd ov).getD i (0,0)).2
        - ((create_chunks_plan d cd ov).getD (i+1) (0,0)).1 = ov)
    ∧ (∀ i, i + 2 = (create_chunks_plan d cd ov).length →
      ((create_chunks_plan d cd ov).getD i (0,0)).2
        - ((create_chunks_plan d cd ov).getD (i+1) (0,0)).1 ≤ ov
      ∧ (((create_chunks_plan d cd ov).getD i (0,0)).2
          - ((create_chunks_plan d cd ov).getD (i+1) (0,0)).1 < ov →
        ((create_chunks_plan d cd ov).getD i (0,0)).2 = d)) := by
  have hs : 0 < cd - ov := by linarith
  constructor
  · intro i hi
    rw [plan_length] at hi
    have hi1 : i < num_chunks d cd ov := by omega
    have hi2 : i + 1 < num_chunks d cd ov := by omega
    rw [plan_getD d cd ov hi1, plan_getD d cd ov hi2]
    dsimp only
    have h2 : ((i + 2 : ℕ) : ℚ) * (cd - ov) < d := index_mul_stride_lt d cd ov hs hi
    have hle : (i : ℚ) * (cd - ov) + cd ≤ d := by
      push_cast at h2
      nlinarith
    rw [min_eq_left hle]
    push_cast
    ring
  · intro i hi
    rw [plan_length] at hi
    have hi1 : i < num_chunks d cd ov := by omega
    have hi2 : i + 1 < num_chunks d cd ov := by omega
    rw [plan_getD d cd ov hi1, plan_getD d cd ov hi2]
    dsimp only
    have hmin : min ((i:ℚ) * (cd - ov) + cd) d ≤ (i:ℚ) * (cd - ov) + cd :=
      min_le_left _ _
    constructor
    · push_cast
      nlinarith [hmin]
    · intro hlt
      rcases min_cases ((i:ℚ) * (cd - ov) + cd) d with ⟨heq, _⟩ | ⟨heq, _⟩
      · exfalso
        rw [heq] at hlt
        push_cast at hlt
        nlinarith
      · exact heq

/-- Witness for the amended C3 at the default parameters (600s, 240s
windows, 15s overlap): the first two windows overlap by exactly 15s. -/
theorem claim_C3_overlap_amended_witness :
    ((create_chunks_plan 600 240 15).getD 0 (0,0)).2
      - ((create_chunks_plan 600 240 15).getD 1 (0,0)).1 = 15 := by
  have h := (claim_C3_overlap_amended 600 240 15 (by norm_num) (by norm_num)
    (by norm_num) (by norm_num)).1 0 (by rw [plan_length, num_chunks_600]; norm_num)
  simpa using h

lemma foldl_chunk_step (env : Env) (l : List ℕ) (a : List MediaPath) (b : List Event) :
    l.foldl (chunk_step env) (a, b) =
      (a ++ (l.filter (fun i => env.mat_ok i)).map MediaPath.chunkSeg,
       b ++ l.flatMap (fun i =>
         if env.mat_ok i then [Event.created (MediaPath.chunkSeg i)]
         else [Event.created (MediaPath.chunkSeg i), Event.deleted (MediaPath.chunkSeg i)])) := by
  induction l generalizing a b with
  | nil => simp
  | cons x xs ih =>
    rcases hx : env.mat_ok x with _ | _
    · simp [chunk_step, hx, ih]
    · simp [chunk_step, hx, ih]

lemma create_chunks_of_some (env : Env) (p : MediaPath) (cd ov : ℚ) (d : ℚ)
    (hd : env.duration_of p = some d) (h0 : d ≠ 0) :
    create_chunks env p cd ov
      = (mat_list env (num_chunks d cd ov), mat_events env (num_chunks d cd ov)) := by
  unfold create_chunks
  rw [hd]
  simp only [h0, if_false]
  rw [foldl_chunk_step]
  simp [mat_list, mat_events]

lemma chunk_loop_all_ok (env : Env) (fmt : String) (ps : List MediaPath)
    (h : ∀ p ∈ ps, (env.http p).status_code = 200) :
    chunk_loop env fmt ps
      = (.ok (ps.map (api_text env fmt)),
         ps.flatMap (fun p => [Event.api_call p, Event.deleted p])) := by
  induction ps with
  | nil => rfl
  | cons p rest ih =>
    have hp := h p (by simp)
    have hr : ∀ q ∈ rest, (env.http q).status_code = 200 := fun q hq => h q (by simp [hq])
    simp [chunk_loop, call_api, hp, api_text, ih hr]


lemma chunk_loop_ok_inv (env : Env) (fmt : String) (ps : List MediaPath)
    (ts : List String) (evs : List Event)
    (h : chunk_loop env fmt ps = (.ok ts, evs)) :
    (∀ p ∈ ps, (env.http p).status_code = 200)
    ∧ ts = ps.map (api_text env fmt)
    ∧ evs = ps.flatMap (fun p => [Event.api_call p, Event.deleted p]) := by
  induction ps generalizing ts evs with
  | nil =>
    simp only [chunk_loop, Prod.mk.injEq, Except.ok.injEq] at h
    obtain ⟨h1, h2⟩ := h
    simp [← h1, ← h2]
  | cons p rest ih =>
    by_cases hp : (env.http p).status_code = 200
    · rcases hrec : chunk_loop env fmt rest with ⟨tr, tev⟩
      cases tr with
      | error e =>
        simp [chunk_loop, call_api, hp, hrec] at h
      | ok ts2 =>
        simp only [chunk_loop, call_api, hp, if_true, hrec, Prod.mk.injEq,
          Except.ok.injEq] at h
        obtain ⟨h1, h2⟩ := h
        obtain ⟨hall, hts, hevs⟩ := ih ts2 tev hrec
        subst h1 h2
        refine ⟨?_, ?_, ?_⟩
        · intro q hq
          rcases List.mem_cons.mp hq with rfl | hq2
          · exact hp
          · exact hall q hq2
        · simp [api_text, hts]
        · simp [hevs]
    · simp [chunk_loop, call_api, hp] at h

lemma chunk_loop_fail_at (env : Env) (fmt : String) (ps : List MediaPath) (k : ℕ)
    (hk : k < ps.length)
    (hpre : ∀ j, j < k → (env.http (ps.getD j MediaPath.original)).status_code = 200)
    (hfail : (env.http (ps.getD k MediaPath.original)).status_code ≠ 200) :
    chunk_loop env fmt ps
      = (.error (.apiError (env.http (ps.getD k MediaPath.original)).status_code
                           (env.http (ps.getD k MediaPath.original)).raw_text),
         (ps.take k).flatMap (fun p => [Event.api_call p, Event.deleted p])
           ++ [Event.api_call (ps.getD k MediaPath.original)]) := by
  induction ps generalizing k with
  | nil => simp at hk
  | cons p rest ih =>
    cases k with
    | zero =>
      rw [List.getD_cons_zero] at hfail ⊢
      simp [chunk_loop, call_api, hfail]
    | succ k2 =>
      have hp : (env.http p).status_code = 200 := by
        have := hpre 0 (Nat.succ_pos _)
        rwa [List.getD_cons_zero] at this
      have hk2 : k2 < rest.length := by simpa using hk
      have hpre2 : ∀ j, j < k2 → (env.http (rest.getD j MediaPath.original)).status_code = 200 := by
        intro j hj
        have := hpre (j+1) (by omega)
        rwa [List.getD_cons_succ] at this
      have hfail2 : (env.http (rest.getD k2 MediaPath.original)).status_code ≠ 200 := by
        rwa [List.getD_cons_succ] at hfail
      have hrec := ih k2 hk2 hpre2 hfail2
      rw [List.getD_cons_succ]
      simp [chunk_loop, call_api, hp, hrec, List.take_succ_cons]

lemma api_calls_append (a b : List Event) :
    api_calls (a ++ b) = api_calls a ++ api_calls b :=
  List.filterMap_append a b _

lemma created_paths_append (a b : List Event) :
    created_paths (a ++ b) = created_paths a ++ created_paths b :=
  List.filterMap_append a b _

lemma deleted_paths_append (a b : List Event) :
    deleted_paths (a ++ b) = deleted_paths a ++ deleted_paths b :=
  List.filterMap_append a b _

lemma api_calls_pair_flatMap (ps : List MediaPath) :
    api_calls (ps.flatMap (fun p => [Event.api_call p, Event.deleted p])) = ps := by
  induction ps with
  | nil => rfl
  | cons p r ih =>
    rw [List.flatMap_cons, api_calls_append, ih]
    rfl

lemma deleted_pair_flatMap (ps : List MediaPath) :
    deleted_paths (ps.flatMap (fun p => [Event.api_call p, Event.deleted p])) = ps := by
  induction ps with
  | nil => rfl
  | cons p r ih =>
    rw [List.flatMap_cons, deleted_paths_append, ih]
    rfl

lemma created_pair_flatMap (ps : List MediaPath) :
    created_paths (ps.flatMap (fun p => [Event.api_call p, Event.deleted p])) = [] := by
  induction ps with
  | nil => rfl
  | cons p r ih =>
    rw [List.flatMap_cons, created_paths_append, ih]
    rfl

lemma api_calls_mat_events (env : Env) (n : ℕ) :
    api_calls (mat_events env n) = [] := by
  unfold mat_events
  induction List.range n with
  | nil => rfl
  | cons x xs ih =>
    rw [List.flatMap_cons, api_calls_append, ih]
    by_cases hx : env.mat_ok x = true
    · rw [if_pos hx]
      rfl
    · rw [if_neg hx]
      rfl

lemma created_mat_events (env : Env) (n : ℕ) :
    created_paths (mat_events env n) = (List.range n).map MediaPath.chunkSeg := by
  unfold mat_events
  induction List.range n with
  | nil => rfl
  | cons x xs ih =>
    rw [List.flatMap_cons, created_paths_append, ih, List.map_cons]
    by_cases hx : env.mat_ok x = true
    · rw [if_pos hx]
      rfl
    · rw [if_neg hx]
      rfl

lemma deleted_mat_events (env : Env) (n : ℕ) :
    deleted_paths (mat_events env n)
      = ((List.range n).filter (fun i => !env.mat_ok i)).map MediaPath.chunkSeg := by
  unfold mat_events
  induction List.range n with
  | nil => rfl
  | cons x xs ih =>
    rw [List.flatMap_cons, deleted_paths_append, ih]
    by_cases hx : env.mat_ok x = true
    · rw [if_pos hx, List.filter_cons_of_neg (by simp [hx])]
      rfl
    · rw [if_neg hx, List.filter_cons_of_pos (by simp [hx]), List.map_cons]
      rfl

lemma archivo_not_video (env : Env) (fp : MediaPath) (l m p f : String) (c : Bool)
    (hv : is_video env fp = false) :
    transcribir_archivo env fp l m p f c = transcribir_audio_file env fp l m p f c := by
  unfold transcribir_archivo
  rw [hv]
  simp

lemma archivo_video (env : Env) (fp : MediaPath) (l m p f : String) (c : Bool)
    (hv : is_video env fp = true) (he : env.extract_ok = true) :
    transcribir_archivo env fp l m p f c
      = ((transcribir_audio_file env MediaPath.extracted l m p f c).1,
         Event.created MediaPath.extracted
           :: (transcribir_audio_file env MediaPath.extracted l m p f c).2) := by
  unfold transcribir_archivo extract_audio
  rw [hv, he]
  simp

lemma audio_file_direct (env : Env) (ap : MediaPath) (l m p f : String) (c : Bool)
    (hs : ¬(MAX_FILE_SIZE_MB < env.size_mb ap ∧ c = true)) :
    transcribir_audio_file env ap l m p f c
      = (match (call_api env ap f).1 with
         | .error e => (.error e, (call_api env ap f).2)
         | .ok text =>
           (.ok { text := text, language := l, duration := env.duration_of ap,
                  success := true, model := m, chunks := 1 },
            (call_api env ap f).2)) := by
  unfold transcribir_audio_file
  rw [if_neg hs]

lemma audio_file_chunked (env : Env) (ap : MediaPath) (l m p f : String)
    (hs : MAX_FILE_SIZE_MB < env.size_mb ap) :
    transcribir_audio_file env ap l m p f true
      = transcribir_chunks env ap (env.duration_of ap) l m p f := by
  unfold transcribir_audio_file
  rw [if_pos ⟨hs, rfl⟩]

lemma transcribir_chunks_of_create (env : Env) (ap : MediaPath) (dur : Option ℚ)
    (l m p f : String) (ps : List MediaPath) (mev : List Event)
    (hc : create_chunks env ap (4 * 60) 15 = (ps, mev)) :
    transcribir_chunks env ap dur l m p f
      = (match (chunk_loop env f ps).1 with
         | .error e => (.error e, mev ++ (chunk_loop env f ps).2)
         | .ok texts =>
           (.ok { text := join_blank texts, language := l, duration := dur,
                  success := true, model := m, chunks := ps.length },
            mev ++ (chunk_loop env f ps).2)) := by
  unfold transcribir_chunks
  rw [hc]

lemma transcribir_chunks_ok_eval (env : Env) (ap : MediaPath) (dur : Option ℚ)
    (l m p f : String) (ps : List MediaPath) (mev : List Event)
    (hc : create_chunks env ap (4 * 60) 15 = (ps, mev))
    (hall : ∀ q ∈ ps, (env.http q).status_code = 200) :
    transcribir_chunks env ap dur l m p f
      = (.ok { text := join_blank (ps.map (api_text env f)), language := l,
               duration := dur, success := true, model := m, chunks := ps.length },
         mev ++ ps.flatMap (fun q => [Event.api_call q, Event.deleted q])) := by
  rw [transcribir_chunks_of_create env ap dur l m p f ps mev hc,
      chunk_loop_all_ok env f ps hall]

lemma transcribir_chunks_fail_eval (env : Env) (ap : MediaPath) (dur : Option ℚ)
    (l m p f : String) (ps : List MediaPath) (mev : List Event)
    (hc : create_chunks env ap (4 * 60) 15 = (ps, mev)) (k : ℕ) (hk : k < ps.length)
    (hpre : ∀ j, j < k → (env.http (ps.getD j MediaPath.original)).status_code = 200)
    (hfail : (env.http (ps.getD k MediaPath.original)).status_code ≠ 200) :
    transcribir_chunks env ap dur l m p f
      = (.error (.apiError (env.http (ps.getD k MediaPath.original)).status_code
                           (env.http (ps.getD k MediaPath.original)).raw_text),
         mev ++ ((ps.take k).flatMap (fun q => [Event.api_call q, Event.deleted q])
           ++ [Event.api_call (ps.getD k MediaPath.original)])) := by
  rw [transcribir_chunks_of_create env ap dur l m p f ps mev hc,
      chunk_loop_fail_at env f ps k hk hpre hfail]

lemma transcribir_chunks_ok_full (env : Env) (ap : MediaPath) (dur : Option ℚ)
    (l m p f : String) (res : TranscriptionResult)
    (h : (transcribir_chunks env ap dur l m p f).1 = .ok res) :
    (∀ q ∈ (create_chunks env ap (4 * 60) 15).1, (env.http q).status_code = 200)
    ∧ res.chunks = (create_chunks env ap (4 * 60) 15).1.length
    ∧ res.text = join_blank ((create_chunks env ap (4 * 60) 15).1.map (api_text env f))
    ∧ res.language = l ∧ res.duration = dur ∧ res.model = m ∧ res.success = true
    ∧ (transcribir_chunks env ap dur l m p f).2
        = (create_chunks env ap (4 * 60) 15).2
          ++ (create_chunks env ap (4 * 60) 15).1.flatMap
               (fun q => [Event.api_call q, Event.deleted q]) := by
  rcases hc : create_chunks env ap (4 * 60) 15 with ⟨ps, mev⟩
  have heq := transcribir_chunks_of_create env ap dur l m p f ps mev hc
  rcases hl : chunk_loop env f ps with ⟨lr, lev⟩
  cases lr with
  | error e =>
    rw [heq, hl] at h
    simp at h
  | ok ts =>
    obtain ⟨hall, hts, hevs⟩ := chunk_loop_ok_inv env f ps ts lev hl
    rw [heq, hl] at h
    simp only [Except.ok.injEq] at h
    refine ⟨hall, ?_, ?_, ?_, ?_, ?_, ?_, ?_⟩
    · rw [← h]
    · rw [← h, hts]
    · rw [← h]
    · rw [← h]
    · rw [← h]
    · rw [← h]
    · rw [heq, hl, hevs]

lemma api_calls_cons_created (p : MediaPath) (evs : List Event) :
    api_calls (Event.created p :: evs) = api_calls evs := rfl

lemma working_path_video (env : Env) (fp : MediaPath) (hv : is_video env fp = true) :
    working_path env fp = MediaPath.extracted := by
  unfold working_path
  rw [hv]
  rfl

lemma working_path_not_video (env : Env) (fp : MediaPath) (hv : is_video env fp = false) :
    working_path env fp = fp := by
  unfold working_path
  rw [hv]
  rfl

/-- Claim C4: when the duration probe fails, no chunk plan is computed and
no chunk segment file is created; the orchestration issues exactly one
transcription call, against the whole working audio file, and any
successful result reports `chunks = 1`, regardless of the file's size. -/
theorem claim_C4_no_duration_single_call (env : Env) (fp : MediaPath)
    (lang mdl prm fmt : String) (chunk : Bool)
    (hx : is_video env fp = true → env.extract_ok = true)
    (hd : env.duration_of (working_path env fp) = none) :
    api_calls (transcribir_archivo env fp lang mdl prm fmt chunk).2 = [working_path env fp]
    ∧ (∀ i, Event.created (MediaPath.chunkSeg i)
        ∉ (transcribir_archivo env fp lang mdl prm fmt chunk).2)
    ∧ (∀ res, (transcribir_archivo env fp lang mdl prm fmt chunk).1 = .ok res →
        res.chunks = 1) := by
  have core : ∀ ap, env.duration_of ap = none →
      api_calls (transcribir_audio_file env ap lang mdl prm fmt chunk).2 = [ap]
      ∧ (∀ i, Event.created (MediaPath.chunkSeg i)
          ∉ (transcribir_audio_file env ap lang mdl prm fmt chunk).2)
      ∧ (∀ res, (transcribir_audio_file env ap lang mdl prm fmt chunk).1 = .ok res →
          res.chunks = 1) := by
    intro ap hda
    by_cases hbr : MAX_FILE_SIZE_MB < env.size_mb ap ∧ chunk = true
    · unfold transcribir_audio_file
      rw [if_pos hbr]
      unfold transcribir_chunks
      rw [show create_chunks env ap (4*60) 15 = ([ap], []) by
        unfold create_chunks; rw [hda]]
      by_cases hst : (env.http ap).status_code = 200
      · simp [chunk_loop, call_api, hst, api_calls]
      · simp [chunk_loop, call_api, hst, api_calls]
    · rw [audio_file_direct env ap lang mdl prm fmt chunk hbr]
      by_cases hst : (env.http ap).status_code = 200
      · simp [call_api, hst, api_calls]
      · simp [call_api, hst, api_calls]
  by_cases hvid : is_video env fp = true
  · have he := hx hvid
    rw [archivo_video env fp lang mdl prm fmt chunk hvid he]
    rw [working_path_video env fp hvid] at hd ⊢
    obtain ⟨h1, h2, h3⟩ := core MediaPath.extracted hd
    refine ⟨?_, ?_, ?_⟩
    · rw [api_calls_cons_created]
      exact h1
    · intro i hmem
      rcases List.mem_cons.mp hmem with heq | hmem2
      · exact absurd heq (by simp)
      · exact h2 i hmem2
    · exact h3
  · have hvf : is_video env fp = false := by simpa using hvid
    rw [archivo_not_video env fp lang mdl prm fmt chunk hvf]
    rw [working_path_not_video env fp hvf] at hd ⊢
    exact core fp hd

/-- Witness for C4: with the duration probe failing on a 30 MB mp3, the
orchestration issues exactly one API call, against the input file itself. -/
theorem claim_C4_no_duration_single_call_witness :
    api_calls (transcribir_archivo envNoDur MediaPath.original "es" default_model
        "" "json" true).2
      = [working_path envNoDur MediaPath.original] :=
  (claim_C4_no_duration_single_call envNoDur MediaPath.original "es" default_model
    "" "json" true (fun _ => rfl) (by rfl)).1

/-- Claim C7: when the (possibly video-extracted) working audio file is at
most 25 MB, the Chunker is never invoked (no chunk segment is created),
exactly one transcription call is issued against the whole audio file, and
a successful result reports `chunks = 1`. -/
theorem claim_C7_small_file_direct (env : Env) (fp : MediaPath)
    (lang mdl prm fmt : String) (chunk : Bool)
    (hx : is_video env fp = true → env.extract_ok = true)
    (hs : env.size_mb (working_path env fp) ≤ MAX_FILE_SIZE_MB) :
    api_calls (transcribir_archivo env fp lang mdl prm fmt chunk).2 = [working_path env fp]
    ∧ (∀ i, Event.created (MediaPath.chunkSeg i)
        ∉ (transcribir_archivo env fp lang mdl prm fmt chunk).2)
    ∧ (∀ res, (transcribir_archivo env fp lang mdl prm fmt chunk).1 = .ok res →
        res.chunks = 1) := by
  have core : ∀ ap, env.size_mb ap ≤ MAX_FILE_SIZE_MB →
      api_calls (transcribir_audio_file env ap lang mdl prm fmt chunk).2 = [ap]
      ∧ (∀ i, Event.created (MediaPath.chunkSeg i)
          ∉ (transcribir_audio_file env ap lang mdl prm fmt chunk).2)
      ∧ (∀ res, (transcribir_audio_file env ap lang mdl prm fmt chunk).1 = .ok res →
          res.chunks = 1) := by
    intro ap hap
    rw [audio_file_direct env ap lang mdl prm fmt chunk
      (fun hcon => absurd hcon.1 (not_lt.mpr hap))]
    by_cases hst : (env.http ap).status_code = 200
    · simp [call_api, hst, api_calls]
    · simp [call_api, hst, api_calls]
  by_cases hvid : is_video env fp = true
  · have he := hx hvid
    rw [archivo_video env fp lang mdl prm fmt chunk hvid he]
    rw [working_path_video env fp hvid] at hs ⊢
    obtain ⟨h1, h2, h3⟩ := core MediaPath.extracted hs
    refine ⟨?_, ?_, ?_⟩
    · rw [api_calls_cons_created]
      exact h1
    · intro i hmem
      rcases List.mem_cons.mp hmem with heq | hmem2
      · exact absurd heq (by simp)
      · exact h2 i hmem2
    · exact h3
  · have hvf : is_video env fp = false := by simpa using hvid
    rw [archivo_not_video env fp lang mdl prm fmt chunk hvf]
    rw [working_path_not_video env fp hvf] at hs ⊢
    exact core fp hs

/-- Witness for C7 (Scenario C): a 10 MB audio file is transcribed with a
single API call against the file itself. -/
theorem claim_C7_small_file_direct_witness :
    api_calls (transcribir_archivo envSmall MediaPath.original "es" default_model
        "" "json" true).2
      = [working_path envSmall MediaPath.original] :=
  (claim_C7_small_file_direct envSmall MediaPath.original "es" default_model
    "" "json" true (fun _ => rfl) (by norm_num [envSmall, baseEnv, MAX_FILE_SIZE_MB,
      working_path, is_video])).1

/-- Claim C10: if the input exceeds 25 MB, chunking is allowed and the
duration probe fails, `create_chunks` returns the source file itself as the
single "chunk", and the chunk loop then deletes that file after its
successful transcription — the orchestration call deletes the caller's
input file, which it did not create. -/
theorem claim_C10_fallback_deletes_input (env : Env) (lang mdl prm fmt : String)
    (he : env.exists_file MediaPath.original = true)
    (hv : is_video env MediaPath.original = false)
    (hs : MAX_FILE_SIZE_MB < env.size_mb MediaPath.original)
    (hd : env.duration_of MediaPath.original = none)
    (h200 : (env.http MediaPath.original).status_code = 200) :
    (create_chunks env MediaPath.original (4 * 60) 15).1 = [MediaPath.original]
    ∧ Event.deleted MediaPath.original
        ∈ (transcribir env (.path MediaPath.original) lang mdl prm fmt true).2
    ∧ Event.created MediaPath.original
        ∉ (transcribir env (.path MediaPath.original) lang mdl prm fmt true).2
    ∧ (∃ res, (transcribir env (.path MediaPath.original) lang mdl prm fmt true).1 = .ok res
        ∧ res.chunks = 1) := by
  have hcc : create_chunks env MediaPath.original (4 * 60) 15 = ([MediaPath.original], []) := by
    unfold create_chunks
    rw [hd]
  have htr : transcribir env (.path MediaPath.original) lang mdl prm fmt true
      = transcribir_chunks env MediaPath.original (env.duration_of MediaPath.original)
          lang mdl prm fmt := by
    unfold transcribir
    dsimp only
    rw [if_pos he, archivo_not_video env MediaPath.original lang mdl prm fmt true hv,
        audio_file_chunked env MediaPath.original lang mdl prm fmt hs]
  rw [htr, transcribir_chunks_ok_eval env MediaPath.original
      (env.duration_of MediaPath.original) lang mdl prm fmt [MediaPath.original] [] hcc
      (by intro q hq; rw [List.mem_singleton] at hq; subst hq; exact h200)]
  refine ⟨hcc ▸ rfl, by simp, by simp, ?_⟩
  exact ⟨_, rfl, rfl⟩

/-- Witness for C10: a 30 MB mp3 with a failing duration probe is deleted
by the orchestration call that transcribed it. -/
theorem claim_C10_fallback_deletes_input_witness :
    Event.deleted MediaPath.original
      ∈ (transcribir envNoDur (.path MediaPath.original) "es" default_model "" "json" true).2 :=
  (claim_C10_fallback_deletes_input envNoDur "es" default_model "" "json" rfl rfl
    (by norm_num [envNoDur, baseEnv, MAX_FILE_SIZE_MB]) rfl rfl).2.1

lemma archivo_chunked_eq (env : Env) (fp : MediaPath) (lang mdl prm fmt : String)
    (hv : is_video env fp = false) (hs : MAX_FILE_SIZE_MB < env.size_mb fp) :
    transcribir_archivo env fp lang mdl prm fmt true
      = transcribir_chunks env fp (env.duration_of fp) lang mdl prm fmt := by
  rw [archivo_not_video env fp lang mdl prm fmt true hv,
      audio_file_chunked env fp lang mdl prm fmt hs]

/-- Claim C6: on the chunked path, the returned `chunks` count equals the
number of chunk segments actually materialized (failed materializations are
dropped from the plan and not counted), which also equals the number of
uploads actually sent to the transcription service. -/
theorem claim_C6_chunk_count_materialized (env : Env) (fp : MediaPath)
    (lang mdl prm fmt : String) (d : ℚ) (res : TranscriptionResult)
    (hv : is_video env fp = false)
    (hd : env.duration_of fp = some d) (h0 : d ≠ 0)
    (hs : MAX_FILE_SIZE_MB < env.size_mb fp)
    (hok : (transcribir_archivo env fp lang mdl prm fmt true).1 = .ok res) :
    res.chunks
      = ((List.range (num_chunks d (4 * 60) 15)).filter (fun i => env.mat_ok i)).length
    ∧ res.chunks = (api_calls (transcribir_archivo env fp lang mdl prm fmt true).2).length := by
  have harch := archivo_chunked_eq env fp lang mdl prm fmt hv hs
  rw [harch] at hok ⊢
  obtain ⟨hall, hchunks, htext, _, _, _, _, hevs⟩ :=
    transcribir_chunks_ok_full env fp (env.duration_of fp) lang mdl prm fmt res hok
  have hcc := create_chunks_of_some env fp (4 * 60) 15 d hd h0
  rw [hcc] at hchunks hevs
  dsimp only at hchunks hevs
  constructor
  · rw [hchunks]
    unfold mat_list
    rw [List.length_map]
  · rw [hevs, api_calls_append, api_calls_mat_events, api_calls_pair_flatMap, hchunks]
    rw [List.nil_append]

/-- Witness for C6: with all three materializations and uploads succeeding
on a 30 MB, 600 s file, the result reports 3 chunks and 3 uploads happened. -/
theorem claim_C6_chunk_count_materialized_witness :
    resOK.chunks
      = ((List.range (num_chunks 600 (4 * 60) 15)).filter (fun i => envOK.mat_ok i)).length
    ∧ resOK.chunks
      = (api_calls (transcribir_archivo envOK MediaPath.original "es" default_model
          "" "json" true).2).length := by
  have hs : MAX_FILE_SIZE_MB < envOK.size_mb MediaPath.original := by
    norm_num [envOK, baseEnv, MAX_FILE_SIZE_MB]
  have hcc : create_chunks envOK MediaPath.original (4 * 60) 15
      = ([MediaPath.chunkSeg 0, MediaPath.chunkSeg 1, MediaPath.chunkSeg 2],
         [Event.created (MediaPath.chunkSeg 0), Event.created (MediaPath.chunkSeg 1),
          Event.created (MediaPath.chunkSeg 2)]) := by
    rw [create_chunks_of_some envOK MediaPath.original (4 * 60) 15 600 rfl (by norm_num)]
    rw [num_chunks_600x]
    rfl
  have hok : (transcribir_archivo envOK MediaPath.original "es" default_model "" "json" true).1
      = .ok resOK := by
    rw [archivo_chunked_eq envOK MediaPath.original "es" default_model "" "json" rfl hs]
    rw [transcribir_chunks_ok_eval envOK MediaPath.original
      (envOK.duration_of MediaPath.original) "es" default_model "" "json"
      [MediaPath.chunkSeg 0, MediaPath.chunkSeg 1, MediaPath.chunkSeg 2]
      [Event.created (MediaPath.chunkSeg 0), Event.created (MediaPath.chunkSeg 1),
       Event.created (MediaPath.chunkSeg 2)] hcc (by intro q hq; fin_cases hq <;> rfl)]
    rfl
  exact claim_C6_chunk_count_materialized envOK MediaPath.original "es" default_model "" "json"
    600 resOK rfl rfl (by norm_num) hs hok

/-- Claim C8: on the chunked path, the text of a successful result is the
per-chunk texts, in chunk index order, joined by a blank-line separator
(`'\n\n'.join`), where the chunks are exactly the successfully materialized
segments. -/
theorem claim_C8_merge_order (env : Env) (fp : MediaPath)
    (lang mdl prm fmt : String) (d : ℚ) (res : TranscriptionResult)
    (hv : is_video env fp = false)
    (hd : env.duration_of fp = some d) (h0 : d ≠ 0)
    (hs : MAX_FILE_SIZE_MB < env.size_mb fp)
    (hok : (transcribir_archivo env fp lang mdl prm fmt true).1 = .ok res) :
    res.text = join_blank
      (((List.range (num_chunks d (4 * 60) 15)).filter (fun i => env.mat_ok i)).map
        (fun i => api_text env fmt (MediaPath.chunkSeg i))) := by
  have harch := archivo_chunked_eq env fp lang mdl prm fmt hv hs
  rw [harch] at hok
  obtain ⟨hall, hchunks, htext, _, _, _, _, hevs⟩ :=
    transcribir_chunks_ok_full env fp (env.duration_of fp) lang mdl prm fmt res hok
  have hcc := create_chunks_of_some env fp (4 * 60) 15 d hd h0
  rw [hcc] at htext
  dsimp only at htext
  rw [htext]
  unfold mat_list
  rw [List.map_map]
  rfl

/-- Witness for C8: three chunks transcribing to "t0", "t1", "t2" merge to
exactly "t0\n\nt1\n\nt2". -/
theorem claim_C8_merge_order_witness :
    resOK.text = join_blank
      (((List.range (num_chunks 600 (4 * 60) 15)).filter (fun i => envOK.mat_ok i)).map
        (fun i => api_text envOK "json" (MediaPath.chunkSeg i))) := by
  have hs : MAX_FILE_SIZE_MB < envOK.size_mb MediaPath.original := by
    norm_num [envOK, baseEnv, MAX_FILE_SIZE_MB]
  have hcc : create_chunks envOK MediaPath.original (4 * 60) 15
      = ([MediaPath.chunkSeg 0, MediaPath.chunkSeg 1, MediaPath.chunkSeg 2],
         [Event.created (MediaPath.chunkSeg 0), Event.created (MediaPath.chunkSeg 1),
          Event.created (MediaPath.chunkSeg 2)]) := by
    rw [create_chunks_of_some envOK MediaPath.original (4 * 60) 15 600 rfl (by norm_num)]
    rw [num_chunks_600x]
    rfl
  have hok : (transcribir_archivo envOK MediaPath.original "es" default_model "" "json" true).1
      = .ok resOK := by
    rw [archivo_chunked_eq envOK MediaPath.original "es" default_model "" "json" rfl hs]
    rw [transcribir_chunks_ok_eval envOK MediaPath.original
      (envOK.duration_of MediaPath.original) "es" default_model "" "json"
      [MediaPath.chunkSeg 0, MediaPath.chunkSeg 1, MediaPath.chunkSeg 2]
      [Event.created (MediaPath.chunkSeg 0), Event.created (MediaPath.chunkSeg 1),
       Event.created (MediaPath.chunkSeg 2)] hcc (by intro q hq; fin_cases hq <;> rfl)]
    rfl
  exact claim_C8_merge_order envOK MediaPath.original "es" default_model "" "json"
    600 resOK rfl rfl (by norm_num) hs hok

/-- Claim C9: a non-200 service response makes `_call_api` fail with an
error carrying the numeric status code and the raw response body, with no
retry; on the chunked path the first such failure (at chunk `k`) aborts the
whole job — the overall call returns that error (no partial
`TranscriptionResult`), exactly one upload happened for each chunk up to
and including `k`, and none for any later chunk. -/
theorem claim_C9_api_error_aborts :
    (∀ (env : Env) (p : MediaPath) (fmt : String),
        (env.http p).status_code ≠ 200 →
        call_api env p fmt
          = (.error (.apiError (env.http p).status_code (env.http p).raw_text),
             [Event.api_call p]))
    ∧ (∀ (env : Env) (fp : MediaPath) (lang mdl prm fmt : String) (d : ℚ) (k : ℕ),
        is_video env fp = false →
        env.duration_of fp = some d → d ≠ 0 →
        MAX_FILE_SIZE_MB < env.size_mb fp →
        (∀ i, env.mat_ok i = true) →
        k < num_chunks d (4 * 60) 15 →
        (∀ j, j < k → (env.http (MediaPath.chunkSeg j)).status_code = 200) →
        (env.http (MediaPath.chunkSeg k)).status_code ≠ 200 →
        (transcribir_archivo env fp lang mdl prm fmt true).1
            = .error (.apiError (env.http (MediaPath.chunkSeg k)).status_code
                                (env.http (MediaPath.chunkSeg k)).raw_text)
        ∧ api_calls (transcribir_archivo env fp lang mdl prm fmt true).2
            = (List.range (k + 1)).map MediaPath.chunkSeg) := by
  constructor
  · intro env p fmt hst
    unfold call_api
    rw [if_neg hst]
  · intro env fp lang mdl prm fmt d k hv hd h0 hs hm hk hpre hfail
    have hml : mat_list env (num_chunks d (4 * 60) 15)
        = (List.range (num_chunks d (4 * 60) 15)).map MediaPath.chunkSeg := by
      unfold mat_list
      rw [List.filter_eq_self.mpr (fun a _ => hm a)]
    have hcc := create_chunks_of_some env fp (4 * 60) 15 d hd h0
    rw [hml] at hcc
    have hgetD : ∀ j, j < num_chunks d (4 * 60) 15 →
        ((List.range (num_chunks d (4 * 60) 15)).map MediaPath.chunkSeg).getD j
            MediaPath.original = MediaPath.chunkSeg j := by
      intro j hj
      rw [List.getD_eq_getElem?_getD, List.getElem?_map, List.getElem?_range hj]
      rfl
    have hk2 : k < ((List.range (num_chunks d (4 * 60) 15)).map MediaPath.chunkSeg).length := by
      simpa using hk
    have hfail2 : (env.http (((List.range (num_chunks d (4 * 60) 15)).map
        MediaPath.chunkSeg).getD k MediaPath.original)).status_code ≠ 200 := by
      rwa [hgetD k hk]
    have hpre2 : ∀ j, j < k → (env.http (((List.range (num_chunks d (4 * 60) 15)).map
        MediaPath.chunkSeg).getD j MediaPath.original)).status_code = 200 := by
      intro j hj
      rw [hgetD j (lt_trans hj hk)]
      exact hpre j hj
    have heval := transcribir_chunks_fail_eval env fp (env.duration_of fp) lang mdl prm fmt
      ((List.range (num_chunks d (4 * 60) 15)).map MediaPath.chunkSeg)
      (mat_events env (num_chunks d (4 * 60) 15)) hcc k hk2 hpre2 hfail2
    rw [archivo_chunked_eq env fp lang mdl prm fmt hv hs, heval]
    constructor
    · dsimp only
      rw [hgetD k hk]
    · dsimp only
      rw [hgetD k hk]
      rw [api_calls_append, api_calls_mat_events, api_calls_append, api_calls_pair_flatMap]
      rw [← List.map_take, List.take_range, Nat.min_eq_left hk.le]
      rw [List.range_succ, List.map_append]
      rfl

/-- Witness for C9 (Scenario D): HTTP 429 on chunk 2 of 3 surfaces as an
error carrying 429 and the body, aborts the job with no result, and only
chunks 1 and 2 were ever uploaded. -/
theorem claim_C9_api_error_aborts_witness :
    call_api envD (MediaPath.chunkSeg 1) "json"
      = (.error (.apiError 429 "rate limited"), [Event.api_call (MediaPath.chunkSeg 1)])
    ∧ (transcribir_archivo envD MediaPath.original "es" default_model "" "json" true).1
      = .error (.apiError 429 "rate limited")
    ∧ api_calls (transcribir_archivo envD MediaPath.original "es" default_model "" "json" true).2
      = [MediaPath.chunkSeg 0, MediaPath.chunkSeg 1] := by
  have h1 := claim_C9_api_error_aborts.1 envD (MediaPath.chunkSeg 1) "json" (by decide)
  have h2 := claim_C9_api_error_aborts.2 envD MediaPath.original "es" default_model "" "json"
    600 1 rfl rfl (by norm_num) (by norm_num [envD, baseEnv, MAX_FILE_SIZE_MB])
    (fun _ => rfl) (by rw [num_chunks_600x]; norm_num)
    (by intro j hj; interval_cases j; rfl) (by decide)
  exact ⟨h1, h2.1, h2.2⟩

lemma call_api_events (env : Env) (p : MediaPath) (f : String) :
    (call_api env p f).2 = [Event.api_call p] := by
  unfold call_api
  by_cases h : (env.http p).status_code = 200
  · rw [if_pos h]
  · rw [if_neg h]

lemma mem_deleted_paths (p : MediaPath) (es : List Event) :
    p ∈ deleted_paths es ↔ Event.deleted p ∈ es := by
  unfold deleted_paths
  rw [List.mem_filterMap]
  constructor
  · rintro ⟨e, he, hsome⟩
    match e with
    | .deleted q =>
      simp only [Option.some.injEq] at hsome
      rwa [hsome] at he
    | .created q => simp at hsome
    | .api_call q => simp at hsome
  · intro h
    exact ⟨Event.deleted p, h, rfl⟩

lemma mem_created_paths (p : MediaPath) (es : List Event) :
    p ∈ created_paths es ↔ Event.created p ∈ es := by
  unfold created_paths
  rw [List.mem_filterMap]
  constructor
  · rintro ⟨e, he, hsome⟩
    match e with
    | .created q =>
      simp only [Option.some.injEq] at hsome
      rwa [hsome] at he
    | .deleted q => simp at hsome
    | .api_call q => simp at hsome
  · intro h
    exact ⟨Event.created p, h, rfl⟩

lemma mem_remaining (p : MediaPath) (es : List Event) :
    p ∈ remaining es ↔ p ∈ created_paths es ∧ p ∉ deleted_paths es := by
  unfold remaining
  rw [List.mem_filter]
  simp

lemma chunk_loop_deleted_sub (env : Env) (f : String) (ps : List MediaPath) (q : MediaPath)
    (h : Event.deleted q ∈ (chunk_loop env f ps).2) : q ∈ ps := by
  induction ps with
  | nil => simp [chunk_loop] at h
  | cons p rest ih =>
    unfold chunk_loop at h
    rcases hc : (call_api env p f).1 with e | t
    · rw [hc] at h
      rw [call_api_events] at h
      simp at h
    · rw [hc] at h
      rcases hl : (chunk_loop env f rest).1 with e2 | ts
      · rw [hl, call_api_events] at h
        simp only [List.mem_append, List.mem_singleton] at h
        rcases h with (h | h) | h
        · simp at h
        · simp only [Event.deleted.injEq] at h
          rw [h]
          exact List.mem_cons_self p rest
        · exact List.mem_cons_of_mem p (ih h)
      · rw [hl, call_api_events] at h
        simp only [List.mem_append, List.mem_singleton] at h
        rcases h with (h | h) | h
        · simp at h
        · simp only [Event.deleted.injEq] at h
          rw [h]
          exact List.mem_cons_self p rest
        · exact List.mem_cons_of_mem p (ih h)

lemma transcribir_chunks_deleted_sub (env : Env) (ap : MediaPath) (dur : Option ℚ)
    (l m p f : String) (q : MediaPath) (d : ℚ)
    (hd : env.duration_of ap = some d) (h0 : d ≠ 0)
    (h : Event.deleted q ∈ (transcribir_chunks env ap dur l m p f).2) :
    ∃ i, q = MediaPath.chunkSeg i := by
  have hcc := create_chunks_of_some env ap (4 * 60) 15 d hd h0
  rw [transcribir_chunks_of_create env ap dur l m p f _ _ hcc] at h
  rcases hl : (chunk_loop env f (mat_list env (num_chunks d (4 * 60) 15))).1 with e | ts
  all_goals rw [hl] at h
  all_goals dsimp only at h
  all_goals rw [List.mem_append] at h
  all_goals rcases h with h | h
  all_goals first
  | · have hq : q ∈ deleted_paths (mat_events env (num_chunks d (4 * 60) 15)) :=
        (mem_deleted_paths q _).mpr h
      rw [deleted_mat_events] at hq
      rw [List.mem_map] at hq
      obtain ⟨i, _, hiq⟩ := hq
      exact ⟨i, hiq.symm⟩
  | · have hq := chunk_loop_deleted_sub env f _ q h
      unfold mat_list at hq
      rw [List.mem_map] at hq
      obtain ⟨i, _, hiq⟩ := hq
      exact ⟨i, hiq.symm⟩

lemma audio_file_chunks_pos (env : Env) (ap : MediaPath) (l m p f : String) (c : Bool)
    (res : TranscriptionResult)
    (hok : (transcribir_audio_file env ap l m p f c).1 = .ok res) :
    1 ≤ res.chunks ∨ (res.chunks = 0 ∧ res.text = "") := by
  by_cases hbr : MAX_FILE_SIZE_MB < env.size_mb ap ∧ c = true
  · unfold transcribir_audio_file at hok
    rw [if_pos hbr] at hok
    obtain ⟨hall, hchunks, htext, _⟩ :=
      transcribir_chunks_ok_full env ap (env.duration_of ap) l m p f res hok
    rcases Nat.eq_zero_or_pos ((create_chunks env ap (4 * 60) 15).1.length) with hz | hp
    · right
      rw [List.length_eq_zero] at hz
      refine ⟨?_, ?_⟩
      · rw [hchunks, hz]
        rfl
      · rw [htext, hz]
        rfl
    · left
      rw [hchunks]
      exact hp
  · rw [audio_file_direct env ap l m p f c hbr] at hok
    rcases hca : (call_api env ap f).1 with e | t
    · rw [hca] at hok
      simp at hok
    · rw [hca] at hok
      simp only [Except.ok.injEq] at hok
      left
      rw [← hok]

lemma archivo_chunks_pos (env : Env) (fp : MediaPath) (l m p f : String) (c : Bool)
    (res : TranscriptionResult)
    (hok : (transcribir_archivo env fp l m p f c).1 = .ok res) :
    1 ≤ res.chunks ∨ (res.chunks = 0 ∧ res.text = "") := by
  by_cases hvid : is_video env fp = true
  · by_cases hex : env.extract_ok = true
    · rw [archivo_video env fp l m p f c hvid hex] at hok
      exact audio_file_chunks_pos env MediaPath.extracted l m p f c res hok
    · have hexf : env.extract_ok = false := by simpa using hex
      unfold transcribir_archivo extract_audio at hok
      rw [hvid, hexf] at hok
      simp at hok
  · rw [archivo_not_video env fp l m p f c (by simpa using hvid)] at hok
    exact audio_file_chunks_pos env fp l m p f c res hok

lemma fileobject_fst (env : Env) (l m p f : String) :
    (transcribir_fileobject env true l m p f).1
      = (transcribir_archivo env MediaPath.buffered l m p f true).1 := by
  unfold transcribir_fileobject
  rw [if_pos rfl]
  split
  · rfl
  · rfl

/-- Claim C5 (amended): every successful orchestration call returns
`chunks ≥ 1`, except on the chunked path when every planned chunk failed to
materialize, in which case the call still "succeeds" with `chunks = 0` and
an empty transcript. -/
theorem claim_C5_chunk_count_amended (env : Env) (src : MediaSource)
    (lang mdl prm fmt : String) (chunk : Bool) (res : TranscriptionResult)
    (hok : (transcribir env src lang mdl prm fmt chunk).1 = .ok res) :
    1 ≤ res.chunks ∨ (res.chunks = 0 ∧ res.text = "") := by
  cases src with
  | path p =>
    unfold transcribir at hok
    dsimp only at hok
    by_cases he : env.exists_file p = true
    · rw [if_pos he] at hok
      exact archivo_chunks_pos env p lang mdl prm fmt chunk res hok
    · rw [if_neg he] at hok
      simp at hok
  | fileobject supported =>
    unfold transcribir at hok
    dsimp only at hok
    cases supported with
    | false =>
      unfold transcribir_fileobject at hok
      simp at hok
    | true =>
      rw [fileobject_fst env lang mdl prm fmt] at hok
      exact archivo_chunks_pos env MediaPath.buffered lang mdl prm fmt true res hok

/-- Claim C5 is false as stated: with a 30 MB, 600 s file on which every
chunk materialization fails, the orchestration call succeeds and returns a
TranscriptionResult with `chunks = 0` (and an empty transcript). -/
theorem claim_C5_cex :
    (transcribir envM (.path MediaPath.original) "es" default_model "" "json" true).1
      = .ok resM
    ∧ ¬(1 ≤ resM.chunks) := by
  constructor
  · have hs : MAX_FILE_SIZE_MB < envM.size_mb MediaPath.original := by
      norm_num [envM, baseEnv, MAX_FILE_SIZE_MB]
    have hcc : create_chunks envM MediaPath.original (4 * 60) 15
        = ([], [Event.created (MediaPath.chunkSeg 0), Event.deleted (MediaPath.chunkSeg 0),
                Event.created (MediaPath.chunkSeg 1), Event.deleted (MediaPath.chunkSeg 1),
                Event.created (MediaPath.chunkSeg 2), Event.deleted (MediaPath.chunkSeg 2)]) := by
      rw [create_chunks_of_some envM MediaPath.original (4 * 60) 15 600 rfl (by norm_num)]
      rw [num_chunks_600x]
      rfl
    unfold transcribir
    dsimp only
    rw [if_pos (show envM.exists_file MediaPath.original = true from rfl),
        archivo_not_video envM MediaPath.original "es" default_model "" "json" true rfl,
        audio_file_chunked envM MediaPath.original "es" default_model "" "json" hs,
        transcribir_chunks_ok_eval envM MediaPath.original
          (envM.duration_of MediaPath.original) "es" default_model "" "json" [] _ hcc
          (by intro q hq; simp at hq)]
    rfl
  · decide

/-- Witness for the amended C5: the direct-path result for a 10 MB file has
`chunks = 1 ≥ 1`. -/
theorem claim_C5_chunk_count_amended_witness :
    1 ≤ resSmall.chunks ∨ (resSmall.chunks = 0 ∧ resSmall.text = "") := by
  have hok : (transcribir envSmall (.path MediaPath.original) "es" default_model "" "json"
      true).1 = .ok resSmall := by
    unfold transcribir
    dsimp only
    rw [if_pos (show envSmall.exists_file MediaPath.original = true from rfl),
        archivo_not_video envSmall MediaPath.original "es" default_model "" "json" true rfl,
        audio_file_direct envSmall MediaPath.original "es" default_model "" "json" true
          (by norm_num [envSmall, baseEnv, MAX_FILE_SIZE_MB])]
    rfl
  exact claim_C5_chunk_count_amended envSmall (.path MediaPath.original) "es" default_model
    "" "json" true resSmall hok

lemma audio_file_no_extracted_delete (env : Env) (ap : MediaPath) (l m p f : String)
    (c : Bool) (d : ℚ) (hd : env.duration_of ap = some d) (h0 : d ≠ 0) :
    Event.deleted MediaPath.extracted ∉ (transcribir_audio_file env ap l m p f c).2 := by
  by_cases hbr : MAX_FILE_SIZE_MB < env.size_mb ap ∧ c = true
  · unfold transcribir_audio_file
    rw [if_pos hbr]
    intro hmem
    obtain ⟨i, hi⟩ := transcribir_chunks_deleted_sub env ap (env.duration_of ap) l m p f
      MediaPath.extracted d hd h0 hmem
    simp at hi
  · rw [audio_file_direct env ap l m p f c hbr]
    rcases hca : (call_api env ap f).1 with e | t
    all_goals dsimp only
    all_goals rw [call_api_events]
    all_goals simp

/-- Claim C1 is false as stated (Scenario D): when the transcription
service answers 429 on chunk 2 of 3, the orchestration call leaves the
segment files of chunks 2 and 3 on disk as it propagates the error — they
are exactly the temporaries remaining after the call. -/
theorem claim_C1_cex :
    remaining (transcribir envD (.path MediaPath.original) "es" default_model "" "json" true).2
      = [MediaPath.chunkSeg 1, MediaPath.chunkSeg 2] := by
  have hs : MAX_FILE_SIZE_MB < envD.size_mb MediaPath.original := by
    norm_num [envD, baseEnv, MAX_FILE_SIZE_MB]
  have hcc : create_chunks envD MediaPath.original (4 * 60) 15
      = ([MediaPath.chunkSeg 0, MediaPath.chunkSeg 1, MediaPath.chunkSeg 2],
         [Event.created (MediaPath.chunkSeg 0), Event.created (MediaPath.chunkSeg 1),
          Event.created (MediaPath.chunkSeg 2)]) := by
    rw [create_chunks_of_some envD MediaPath.original (4 * 60) 15 600 rfl (by norm_num)]
    rw [num_chunks_600x]
    rfl
  have heval := transcribir_chunks_fail_eval envD MediaPath.original
    (envD.duration_of MediaPath.original) "es" default_model "" "json"
    [MediaPath.chunkSeg 0, MediaPath.chunkSeg 1, MediaPath.chunkSeg 2] _ hcc 1 (by norm_num)
    (by intro j hj; interval_cases j; rfl) (by decide)
  unfold transcribir
  dsimp only
  rw [if_pos (show envD.exists_file MediaPath.original = true from rfl),
      archivo_not_video envD MediaPath.original "es" default_model "" "json" true rfl,
      audio_file_chunked envD MediaPath.original "es" default_model "" "json" hs,
      heval]
  rfl

/-- Claim C1 (amended): (i) the buffered-stream temporary of a readable
stream input is always deleted before the call ends, success or failure;
(ii) likewise the downloaded-URL temporary once the download succeeded;
(iii) but chunk segment files are deleted only as their own transcriptions
succeed: when the service fails on chunk k (0-based) of the plan, the
segment files of chunks 0..k-1 have been removed while those of chunks
k..n-1 all remain on disk; and (iv) the extracted-audio temporary of a
video input is never deleted when the duration probe succeeds. -/
theorem claim_C1_cleanup_amended :
    (∀ (env : Env) (lang mdl prm fmt : String),
        MediaPath.buffered ∉ remaining (transcribir_fileobject env true lang mdl prm fmt).2)
    ∧ (∀ (env : Env) (lang mdl prm : String), env.download_ok = true →
        MediaPath.downloaded ∉ remaining (transcribir_url env lang mdl prm).2)
    ∧ (∀ (env : Env) (fp : MediaPath) (lang mdl prm fmt : String) (d : ℚ) (k : ℕ),
        is_video env fp = false →
        env.duration_of fp = some d → d ≠ 0 →
        MAX_FILE_SIZE_MB < env.size_mb fp →
        (∀ i, env.mat_ok i = true) →
        k < num_chunks d (4 * 60) 15 →
        (∀ j, j < k → (env.http (MediaPath.chunkSeg j)).status_code = 200) →
        (env.http (MediaPath.chunkSeg k)).status_code ≠ 200 →
        (∀ j, j < k → MediaPath.chunkSeg j
            ∉ remaining (transcribir_archivo env fp lang mdl prm fmt true).2)
        ∧ (∀ j, k ≤ j → j < num_chunks d (4 * 60) 15 → MediaPath.chunkSeg j
            ∈ remaining (transcribir_archivo env fp lang mdl prm fmt true).2))
    ∧ (∀ (env : Env) (fp : MediaPath) (lang mdl prm fmt : String) (c : Bool) (d : ℚ),
        (is_video env fp = true → env.extract_ok = true) →
        env.duration_of (working_path env fp) = some d → d ≠ 0 →
        Event.deleted MediaPath.extracted
          ∉ (transcribir_archivo env fp lang mdl prm fmt c).2) := by
  refine ⟨?_, ?_, ?_, ?_⟩
  · intro env lang mdl prm fmt
    unfold transcribir_fileobject
    rw [if_pos rfl]
    by_cases hin : Event.deleted MediaPath.buffered
        ∈ Event.created MediaPath.buffered
            :: (transcribir_archivo env MediaPath.buffered lang mdl prm fmt true).2
    · rw [if_pos hin]
      intro hmem
      rw [mem_remaining] at hmem
      exact hmem.2 ((mem_deleted_paths _ _).mpr hin)
    · rw [if_neg hin]
      intro hmem
      rw [mem_remaining] at hmem
      apply hmem.2
      rw [mem_deleted_paths]
      simp
  · intro env lang mdl prm hdl
    unfold transcribir_url
    rw [if_pos hdl]
    by_cases hin : Event.deleted MediaPath.downloaded
        ∈ Event.created MediaPath.downloaded
            :: (transcribir env (.path MediaPath.downloaded) lang mdl prm "json" true).2
    · rw [if_pos hin]
      intro hmem
      rw [mem_remaining] at hmem
      exact hmem.2 ((mem_deleted_paths _ _).mpr hin)
    · rw [if_neg hin]
      intro hmem
      rw [mem_remaining] at hmem
      apply hmem.2
      rw [mem_deleted_paths]
      simp
  · intro env fp lang mdl prm fmt d k hv hd h0 hs hm hk hpre hfail
    have hml : mat_list env (num_chunks d (4 * 60) 15)
        = (List.range (num_chunks d (4 * 60) 15)).map MediaPath.chunkSeg := by
      unfold mat_list
      rw [List.filter_eq_self.mpr (fun a _ => hm a)]
    have hcc := create_chunks_of_some env fp (4 * 60) 15 d hd h0
    rw [hml] at hcc
    have hgetD : ∀ j, j < num_chunks d (4 * 60) 15 →
        ((List.range (num_chunks d (4 * 60) 15)).map MediaPath.chunkSeg).getD j
            MediaPath.original = MediaPath.chunkSeg j := by
      intro j hj
      rw [List.getD_eq_getElem?_getD, List.getElem?_map, List.getElem?_range hj]
      rfl
    have hk2 : k < ((List.range (num_chunks d (4 * 60) 15)).map MediaPath.chunkSeg).length := by
      simpa using hk
    have hfail2 : (env.http (((List.range (num_chunks d (4 * 60) 15)).map
        MediaPath.chunkSeg).getD k MediaPath.original)).status_code ≠ 200 := by
      rwa [hgetD k hk]
    have hpre2 : ∀ j, j < k → (env.http (((List.range (num_chunks d (4 * 60) 15)).map
        MediaPath.chunkSeg).getD j MediaPath.original)).status_code = 200 := by
      intro j hj
      rw [hgetD j (lt_trans hj hk)]
      exact hpre j hj
    have heval := transcribir_chunks_fail_eval env fp (env.duration_of fp) lang mdl prm fmt
      ((List.range (num_chunks d (4 * 60) 15)).map MediaPath.chunkSeg)
      (mat_events env (num_chunks d (4 * 60) 15)) hcc k hk2 hpre2 hfail2
    rw [archivo_chunked_eq env fp lang mdl prm fmt hv hs, heval]
    dsimp only
    have hcre : created_paths (mat_events env (num_chunks d (4 * 60) 15)
        ++ ((((List.range (num_chunks d (4 * 60) 15)).map MediaPath.chunkSeg).take k).flatMap
              (fun q => [Event.api_call q, Event.deleted q])
            ++ [Event.api_call (((List.range (num_chunks d (4 * 60) 15)).map
                  MediaPath.chunkSeg).getD k MediaPath.original)]))
        = (List.range (num_chunks d (4 * 60) 15)).map MediaPath.chunkSeg := by
      rw [created_paths_append, created_mat_events, created_paths_append, created_pair_flatMap]
      simp [created_paths]
    have hdel : deleted_paths (mat_events env (num_chunks d (4 * 60) 15)
        ++ ((((List.range (num_chunks d (4 * 60) 15)).map MediaPath.chunkSeg).take k).flatMap
              (fun q => [Event.api_call q, Event.deleted q])
            ++ [Event.api_call (((List.range (num_chunks d (4 * 60) 15)).map
                  MediaPath.chunkSeg).getD k MediaPath.original)]))
        = (List.range k).map MediaPath.chunkSeg := by
      rw [deleted_paths_append, deleted_mat_events, deleted_paths_append, deleted_pair_flatMap]
      rw [List.filter_eq_nil_iff.mpr (by intro a ha; simp [hm a]), List.map_nil,
          List.nil_append]
      rw [← List.map_take, List.take_range, Nat.min_eq_left hk.le]
      simp [deleted_paths]
    constructor
    · intro j hj hmem
      rw [mem_remaining] at hmem
      apply hmem.2
      rw [hdel, List.mem_map]
      exact ⟨j, List.mem_range.mpr hj, rfl⟩
    · intro j hkj hjn
      rw [mem_remaining]
      constructor
      · rw [hcre, List.mem_map]
        exact ⟨j, List.mem_range.mpr hjn, rfl⟩
      · rw [hdel]
        intro hin
        rw [List.mem_map] at hin
        obtain ⟨i, hir, hieq⟩ := hin
        simp only [MediaPath.chunkSeg.injEq] at hieq
        rw [List.mem_range] at hir
        omega
  · intro env fp lang mdl prm fmt c d hx hd h0
    by_cases hvid : is_video env fp = true
    · rw [archivo_video env fp lang mdl prm fmt c hvid (hx hvid)]
      rw [working_path_video env fp hvid] at hd
      intro hmem
      rcases List.mem_cons.mp hmem with heq | hmem2
      · simp at heq
      · exact audio_file_no_extracted_delete env MediaPath.extracted lang mdl prm fmt c d
          hd h0 hmem2
    · have hvf : is_video env fp = false := by simpa using hvid
      rw [archivo_not_video env fp lang mdl prm fmt c hvf]
      rw [working_path_not_video env fp hvf] at hd
      exact audio_file_no_extracted_delete env fp lang mdl prm fmt c d hd h0

/-- Witness for the amended C1 at Scenario D: the buffered-stream temporary
is always removed, chunk 1's segment file was removed after its successful
upload, and chunk 3's segment file remains after the 429 failure on chunk 2. -/
theorem claim_C1_cleanup_amended_witness :
    MediaPath.buffered ∉ remaining (transcribir_fileobject envD true "es" default_model
        "" "json").2
    ∧ MediaPath.chunkSeg 0 ∉ remaining (transcribir_archivo envD MediaPath.original "es"
        default_model "" "json" true).2
    ∧ MediaPath.chunkSeg 2 ∈ remaining (transcribir_archivo envD MediaPath.original "es"
        default_model "" "json" true).2 := by
  have h3 := claim_C1_cleanup_amended.2.2.1 envD MediaPath.original "es" default_model "" "json"
    600 1 rfl rfl (by norm_num) (by norm_num [envD, baseEnv, MAX_FILE_SIZE_MB])
    (fun _ => rfl) (by rw [num_chunks_600x]; norm_num)
    (by intro j hj; interval_cases j; rfl) (by decide)
  exact ⟨claim_C1_cleanup_amended.1 envD "es" default_model "" "json",
    h3.1 0 (by norm_num), h3.2 2 (by norm_num) (by rw [num_chunks_600x]; norm_num)⟩
